import Mathlib

/-!
Shallow embedding of the WebRTC signaling relay server (Go, `main.go`).

The server keeps a process-wide registry `rooms : map[string]*Room`, where a
`Room` holds a `map[string]*Client`.  Go maps are modelled as association
lists with unique keys; map assignment (`m[k] = v`) is `mapInsert`, map
deletion (`delete(m, k)`) is `mapErase`, indexing is `mapLookup`.  Network
writes are modelled by returning the list of (recipient, message) pairs the
operation performs; the WebSocket connection handle is modelled as a `Nat`
tag so that distinct live connections are distinguishable values.
-/

namespace Signaling

/-- Association-list lookup, modelling Go's `v, ok := m[k]`. -/
def mapLookup {α : Type} : List (String × α) → String → Option α
  | [], _ => none
  | p :: rest, k => if p.1 = k then some p.2 else mapLookup rest k

/-- Remove every binding of key `k`, modelling Go's `delete(m, k)`. -/
def mapErase {α : Type} : List (String × α) → String → List (String × α)
  | [], _ => []
  | p :: rest, k => if p.1 = k then mapErase rest k else p :: mapErase rest k

/-- Map assignment `m[k] = v`: any previous binding of `k` is replaced. -/
def mapInsert {α : Type} (l : List (String × α)) (k : String) (v : α) :
    List (String × α) :=
  mapErase l k ++ [(k, v)]

/-- A connected websocket client (`Client` struct): the live connection
handle (modelled as a numeric tag), the client id, owning room id and
display name. -/
structure Client where
  Conn : Nat
  ID : String
  RoomID : String
  Username : String
deriving DecidableEq, Repr

/-- A room (`Room` struct): its `Clients map[string]*Client`. -/
structure Room where
  Clients : List (String × Client)
deriving DecidableEq, Repr

/-- The process-wide registry `rooms map[string]*Room`. -/
def Registry : Type := List (String × Room)

instance : DecidableEq Registry := by
  unfold Registry
  infer_instance

/-- The wire message envelope (`Message` struct).  `SDP` and `Candidate`
are opaque payload blobs (Go `json.RawMessage`), modelled as strings; an
absent optional field is the empty string (Go zero value). -/
structure Message where
  type : String
  From : String
  To : String
  RoomID : String
  Username : String
  SDP : String
  Candidate : String
deriving DecidableEq, Repr

/-- `generateRoomID`'s charset constant. -/
def charset : List Char :=
  "abcdefghijklmnopqrstuvwxyzABCDEFGHIJKLMNOPQRSTUVWXYZ0123456789".toList

/-- `randomString(length)`: builds a byte string with
`b[i] = charset[i % len(charset)]`. -/
def randomString (length : Nat) : String :=
  String.mk ((List.range length).map fun i => charset.getD (i % charset.length) ' ')

/-- `generateRoomID()`: `"room-" + randomString(8)`. -/
def generateRoomID : String := "room-" ++ randomString 8

/-- `handleRooms` on POST: create a new room id, install an empty `Room`
in the registry, and return the id in the response body. -/
def createRoom (st : Registry) : Registry × String :=
  let roomID := generateRoomID
  (mapInsert st roomID ⟨[]⟩, roomID)

/-- `handleRooms` on GET: snapshot of the registry's room ids. -/
def listRoomIds (st : Registry) : List String :=
  st.map Prod.fst

/-- `broadcastToRoom(roomID, msg)`: look the room up in the registry; if
absent do nothing; otherwise write the re-encoded message to every member
whose `ID` differs from `msg.From` (the sender is skipped). -/
def broadcastToRoom (st : Registry) (roomID : String) (msg : Message) :
    List (Client × Message) :=
  match mapLookup st roomID with
  | none => []
  | some room =>
      (room.Clients.filter fun p => p.2.ID != msg.From).map fun p => (p.2, msg)

/-- `notifyRoom(roomID, clientID, eventType, username)`: broadcast a
server-originated event message (`To`, `SDP`, `Candidate` left at their
zero values). -/
def notifyRoom (st : Registry) (roomID clientID eventType username : String) :
    List (Client × Message) :=
  broadcastToRoom st roomID
    { type := eventType, From := clientID, To := "", RoomID := roomID,
      Username := username, SDP := "", Candidate := "" }

/-- `forwardMessage(msg)`: look up the room `msg.RoomID`, then the target
client `msg.To` inside it; if either is absent, drop the message silently;
otherwise write it to the target alone. -/
def forwardMessage (st : Registry) (msg : Message) : List (Client × Message) :=
  match mapLookup st msg.RoomID with
  | none => []
  | some room =>
      match mapLookup room.Clients msg.To with
      | none => []
      | some target => [(target, msg)]

/-- The origin stamping at the top of `handleMessages`' dispatch:
`msg.From = client.ID; msg.RoomID = client.RoomID`. -/
def stamp (client : Client) (m : Message) : Message :=
  { m with From := client.ID, RoomID := client.RoomID }

/-- One inbound websocket frame, as seen by the read loop: a non-text
frame, a text frame whose payload fails JSON decoding, or a text frame
decoding to a (client-supplied) `Message`. -/
inductive Frame where
  | nonText : Frame
  | badJSON : Frame
  | text : Message → Frame
deriving DecidableEq, Repr

/-- The per-type dispatch (`switch msg.type`) in `handleMessages`, applied
to an already origin-stamped message.  Signaling types unicast via
`forwardMessage` when `To` is non-empty; `chat` broadcasts to the sender's
room; everything else is dropped.  The registry is returned unchanged:
routing never mutates it. -/
def routeMessage (client : Client) (st : Registry) (msg : Message) :
    Registry × List (Client × Message) :=
  if msg.type = "offer" ∨ msg.type = "answer" ∨ msg.type = "ice-candidate" then
    if msg.To ≠ "" then (st, forwardMessage st msg) else (st, [])
  else if msg.type = "chat" then
    (st, broadcastToRoom st client.RoomID msg)
  else
    (st, [])

/-- One iteration of `handleMessages`' read loop on a frame that did not
produce a read error: non-text frames and undecodable payloads are skipped
(`continue`); a decoded message is stamped with the true origin and
dispatched. -/
def processFrame (client : Client) (st : Registry) :
    Frame → Registry × List (Client × Message)
  | Frame.nonText => (st, [])
  | Frame.badJSON => (st, [])
  | Frame.text m => routeMessage client st (stamp client m)

/-- The deferred teardown in `handleMessages`: remove the client from its
room's mapping; if the mapping became empty, delete the room from the
registry; otherwise notify the remaining members with a `leave` event
(computed against the post-removal state). -/
def teardown (client : Client) (st : Registry) :
    Registry × List (Client × Message) :=
  match mapLookup st client.RoomID with
  | none => (st, [])
  | some room =>
      let remaining := mapErase room.Clients client.ID
      if remaining.isEmpty then
        (mapErase st client.RoomID, [])
      else
        let st2 := mapInsert st client.RoomID ⟨remaining⟩
        (st2, notifyRoom st2 client.RoomID client.ID "leave" client.Username)

/-- The read loop of `handleMessages`: consume inbound frames in order
until the transport read errors (end of the frame list), then run the
deferred teardown.  Accumulates every outbound write the loop performs. -/
def handleMessagesLoop (client : Client) (st : Registry) :
    List Frame → Registry × List (Client × Message)
  | [] => teardown client st
  | f :: rest =>
      let r1 := processFrame client st f
      let r2 := handleMessagesLoop client r1.1 rest
      (r2.1, r1.2 ++ r2.2)

/-- Outcome of `handleWebSocket`: parameter validation failed (HTTP 400),
the upgrade handshake failed, or a `Client` was created and registered. -/
inductive UpgradeResult where
  | badRequest : UpgradeResult
  | upgradeFailed : UpgradeResult
  | ok : Client → UpgradeResult
deriving DecidableEq, Repr

/-- `handleWebSocket`: validate the three query parameters (reject with
HTTP 400 if any is empty, touching no state); get-or-create the room in
the registry; attempt the upgrade (`upgradeOk` models its success — on
failure the handler returns, leaving a just-created room installed);
insert the new client into the room's mapping, replacing any previous
entry under the same id, and notify the other members with a `join`. -/
def handleWebSocket (st : Registry) (roomID clientID username : String)
    (conn : Nat) (upgradeOk : Bool) :
    Registry × UpgradeResult × List (Client × Message) :=
  if roomID = "" ∨ clientID = "" ∨ username = "" then
    (st, UpgradeResult.badRequest, [])
  else
    let st1 := match mapLookup st roomID with
      | some _ => st
      | none => mapInsert st roomID ⟨[]⟩
    let room : Room := match mapLookup st roomID with
      | some r => r
      | none => ⟨[]⟩
    if upgradeOk then
      let client : Client :=
        { Conn := conn, ID := clientID, RoomID := roomID, Username := username }
      let st2 := mapInsert st1 roomID ⟨mapInsert room.Clients clientID client⟩
      (st2, UpgradeResult.ok client, notifyRoom st2 roomID clientID "join" username)
    else
      (st1, UpgradeResult.upgradeFailed, [])

/-- Registry-level operations: explicit room creation (`POST /api/rooms`),
a websocket join, and a connection termination (the teardown path). -/
inductive Op where
  | create : Op
  | join : String → String → String → Nat → Bool → Op
  | leave : Client → Op
deriving DecidableEq, Repr

/-- Effect of one operation on the registry. -/
def stepOp (st : Registry) : Op → Registry
  | Op.create => (createRoom st).1
  | Op.join roomID clientID username conn upgradeOk =>
      (handleWebSocket st roomID clientID username conn upgradeOk).1
  | Op.leave client => (teardown client st).1

/-- Registry reached from the initial empty registry by a sequence of
operations. -/
def run (ops : List Op) : Registry := ops.foldl stepOp []

/-- A room id is present in the registry. -/
def roomExists (st : Registry) (roomID : String) : Bool :=
  (mapLookup st roomID).isSome

/-- Member count of a room (0 if the room is absent). -/
def memberCount (st : Registry) (roomID : String) : Nat :=
  match mapLookup st roomID with
  | some room => room.Clients.length
  | none => 0

/-- No room present in the registry has an empty member mapping. -/
def NoEmptyRooms (st : Registry) : Prop :=
  ∀ rid room, mapLookup st rid = some room → room.Clients ≠ []

/-- Operations other than explicit room creation, with joins restricted to
those whose upgrade handshake succeeds. -/
def goodOp : Op → Bool
  | Op.create => false
  | Op.join _ _ _ _ upgradeOk => upgradeOk
  | Op.leave _ => true

/-! ### Concrete fixtures (used to instantiate proved theorems) -/

/-- Fixture: client `"A"` on connection 0 in room `"R"`. -/
def clientA : Client := ⟨0, "A", "R", "alice"⟩

/-- Fixture: client `"B"` on connection 1 in room `"R"`. -/
def clientB : Client := ⟨1, "B", "R", "bob"⟩

/-- Fixture: room `"R"` holding clients A and B. -/
def roomR : Room := ⟨[("A", clientA), ("B", clientB)]⟩

/-- Fixture: a registry holding only room `"R"`. -/
def reg1 : Registry := [("R", roomR)]

/-- Fixture: a chat message with client-spoofed `From`/`RoomID`. -/
def msgChatSpoof : Message := ⟨"chat", "x", "", "r1", "hello", "", ""⟩

/-- Fixture: the same chat message with different spoofed `From`/`RoomID`. -/
def msgChatSpoof2 : Message := ⟨"chat", "y", "", "r2", "hello", "", ""⟩

/-- Fixture: an offer targeted at client `"B"`. -/
def msgOfferToB : Message := ⟨"offer", "x", "B", "r1", "", "sdp-blob", ""⟩

/-- Fixture: an offer targeted at client `"A"`. -/
def msgOfferToA : Message := ⟨"offer", "x", "A", "r1", "", "sdp-blob", ""⟩

/-- Fixture: an offer targeted at an id that is in no room. -/
def msgOfferToGhost : Message := ⟨"offer", "x", "ghost", "r1", "", "sdp-blob", ""⟩

/-! ### Association-list map lemmas -/

theorem mapLookup_erase_self {α : Type} (l : List (String × α)) (k : String) :
    mapLookup (mapErase l k) k = none := by
  induction l with
  | nil => rfl
  | cons p rest ih =>
      by_cases h : p.1 = k
      · simp [mapErase, h, ih]
      · simp [mapErase, mapLookup, h, ih]

theorem mapLookup_erase_ne {α : Type} (l : List (String × α)) (k k' : String)
    (h : k' ≠ k) : mapLookup (mapErase l k) k' = mapLookup l k' := by
  have hkk : ¬ k = k' := fun hk => h hk.symm
  induction l with
  | nil => rfl
  | cons p rest ih =>
      by_cases hp : p.1 = k
      · simp [mapErase, mapLookup, hp, hkk, ih]
      · by_cases hp' : p.1 = k'
        · simp [mapErase, mapLookup, hp, hp', h, ih]
        · simp [mapErase, mapLookup, hp, hp', ih]

theorem mapLookup_append_of_none {α : Type} (l1 l2 : List (String × α))
    (k : String) (h : mapLookup l1 k = none) :
    mapLookup (l1 ++ l2) k = mapLookup l2 k := by
  induction l1 with
  | nil => rfl
  | cons p rest ih =>
      by_cases hp : p.1 = k
      · simp [mapLookup, hp] at h
      · simp only [mapLookup, hp] at h
        simp [mapLookup, hp, ih h]

theorem mapLookup_insert_self {α : Type} (l : List (String × α)) (k : String)
    (v : α) : mapLookup (mapInsert l k v) k = some v := by
  unfold mapInsert
  rw [mapLookup_append_of_none _ _ _ (mapLookup_erase_self l k)]
  simp [mapLookup]

theorem mapLookup_append_of_some {α : Type} (l1 l2 : List (String × α))
    (k : String) (v : α) (h : mapLookup l1 k = some v) :
    mapLookup (l1 ++ l2) k = some v := by
  induction l1 with
  | nil => simp [mapLookup] at h
  | cons p rest ih =>
      simp only [List.cons_append, mapLookup] at h ⊢
      by_cases hp : p.1 = k
      · simpa [hp] using h
      · simp only [if_neg hp] at h ⊢
        exact ih h

theorem mapLookup_insert_ne {α : Type} (l : List (String × α)) (k k' : String)
    (v : α) (h : k' ≠ k) :
    mapLookup (mapInsert l k v) k' = mapLookup l k' := by
  unfold mapInsert
  cases hcase : mapLookup (mapErase l k) k' with
  | none =>
      rw [mapLookup_append_of_none _ _ _ hcase, ← mapLookup_erase_ne l k k' h,
        hcase]
      simp [mapLookup, show ¬ k = k' from fun hk => h hk.symm]
  | some v' =>
      rw [mapLookup_append_of_some _ _ _ _ hcase, ← mapLookup_erase_ne l k k' h,
        hcase]

theorem mapLookup_mem {α : Type} {l : List (String × α)} {k : String} {v : α}
    (h : mapLookup l k = some v) : (k, v) ∈ l := by
  induction l with
  | nil => simp [mapLookup] at h
  | cons p rest ih =>
      obtain ⟨a, b⟩ := p
      by_cases hp : a = k
      · subst hp
        simp only [mapLookup, if_true, Option.some.injEq] at h
        subst h
        exact List.mem_cons_self _ _
      · simp only [mapLookup, if_neg hp] at h
        exact List.mem_cons_of_mem _ (ih h)

theorem mem_mapErase {α : Type} {l : List (String × α)} {k : String}
    {p : String × α} (h : p ∈ mapErase l k) : p ∈ l ∧ p.1 ≠ k := by
  induction l with
  | nil => simp [mapErase] at h
  | cons q rest ih =>
      by_cases hq : q.1 = k
      · simp only [mapErase, if_pos hq] at h
        exact ⟨List.mem_cons_of_mem _ (ih h).1, (ih h).2⟩
      · simp only [mapErase, if_neg hq, List.mem_cons] at h
        rcases h with rfl | h
        · exact ⟨List.mem_cons_self _ _, hq⟩
        · exact ⟨List.mem_cons_of_mem _ (ih h).1, (ih h).2⟩

theorem mapInsert_ne_nil {α : Type} (l : List (String × α)) (k : String)
    (v : α) : mapInsert l k v ≠ [] := by
  simp [mapInsert]

/-! ### Delivery lemmas -/

theorem broadcast_mem {st : Registry} {roomID : String} {msg : Message}
    {d : Client × Message} (hd : d ∈ broadcastToRoom st roomID msg) :
    d.2 = msg ∧ d.1.ID ≠ msg.From ∧
      ∃ room, mapLookup st roomID = some room ∧ ∃ p ∈ room.Clients, p.2 = d.1 := by
  unfold broadcastToRoom at hd
  cases hlook : mapLookup st roomID with
  | none => rw [hlook] at hd; simp at hd
  | some room =>
      rw [hlook] at hd
      simp only [List.mem_map, List.mem_filter] at hd
      obtain ⟨p, ⟨hp, hne⟩, rfl⟩ := hd
      exact ⟨rfl, by simpa using hne, room, rfl, p, hp, rfl⟩

theorem broadcast_covers {st : Registry} {roomID : String} {msg : Message}
    {room : Room} {p : String × Client}
    (hroom : mapLookup st roomID = some room) (hp : p ∈ room.Clients)
    (hne : p.2.ID ≠ msg.From) :
    (p.2, msg) ∈ broadcastToRoom st roomID msg := by
  unfold broadcastToRoom
  rw [hroom]
  simp only [List.mem_map, List.mem_filter]
  exact ⟨p, ⟨hp, by simpa using hne⟩, rfl⟩

theorem forward_mem {st : Registry} {msg : Message} {d : Client × Message}
    (hd : d ∈ forwardMessage st msg) :
    ∃ room, mapLookup st msg.RoomID = some room ∧
      mapLookup room.Clients msg.To = some d.1 ∧ d.2 = msg := by
  unfold forwardMessage at hd
  split at hd
  · simp at hd
  · rename_i room h1
    split at hd
    · simp at hd
    · rename_i target h2
      simp only [List.mem_singleton] at hd
      subst hd
      exact ⟨room, h1, h2, rfl⟩

theorem forward_hit {st : Registry} {msg : Message} {room : Room}
    {target : Client} (hroom : mapLookup st msg.RoomID = some room)
    (htgt : mapLookup room.Clients msg.To = some target) :
    forwardMessage st msg = [(target, msg)] := by
  simp [forwardMessage, hroom, htgt]

theorem forward_miss {st : Registry} {msg : Message} {room : Room}
    (hroom : mapLookup st msg.RoomID = some room)
    (htgt : mapLookup room.Clients msg.To = none) :
    forwardMessage st msg = [] := by
  simp [forwardMessage, hroom, htgt]

theorem routeMessage_fst (client : Client) (st : Registry) (msg : Message) :
    (routeMessage client st msg).1 = st := by
  unfold routeMessage
  split_ifs <;> rfl

theorem routeMessage_payload {client : Client} {st : Registry} {msg : Message}
    {d : Client × Message} (hd : d ∈ (routeMessage client st msg).2) :
    d.2 = msg := by
  unfold routeMessage at hd
  split_ifs at hd with h1 h2 h3
  · obtain ⟨room, -, -, h⟩ := forward_mem hd
    exact h
  · simp at hd
  · exact (broadcast_mem hd).1
  · simp at hd

theorem stamp_From (client : Client) (m : Message) :
    (stamp client m).From = client.ID := rfl

theorem stamp_RoomID (client : Client) (m : Message) :
    (stamp client m).RoomID = client.RoomID := rfl

theorem stamp_type (client : Client) (m : Message) :
    (stamp client m).type = m.type := rfl

theorem stamp_To (client : Client) (m : Message) :
    (stamp client m).To = m.To := rfl

/-! ### Claim theorems -/

/-- Claim C2 (evidence of the code bug): `generateRoomID` is deterministic —
`randomString` indexes the charset with `i % len(charset)` and never draws
any randomness — so the room-creation endpoint returns `"room-abcdefgh"`
on every call: a second call returns the same identifier as the first, an
identifier that already exists in the registry at that point, contradicting
both the claim and the function's own "generate a random room ID"
documentation. -/
theorem C2_roomID_not_fresh :
    randomString 8 = "abcdefgh" ∧
    (createRoom []).2 = "room-abcdefgh" ∧
    (createRoom ((createRoom []).1)).2 = (createRoom []).2 ∧
    roomExists (createRoom []).1 ((createRoom ((createRoom []).1)).2) = true := by
  decide

/-- Claim C3: the server overwrites `From` and `RoomID` with the sending
connection's identity before any routing decision; hence routing is
independent of the client-supplied `From`/`RoomID` (two-run
noninterference over those fields), and every delivered message carries
the true sender id and room. -/
theorem C3_origin_stamping (st : Registry) (client : Client) (m1 m2 : Message)
    (h : stamp client m1 = stamp client m2) :
    processFrame client st (Frame.text m1) = processFrame client st (Frame.text m2) ∧
    ∀ d ∈ (processFrame client st (Frame.text m1)).2,
      d.2.From = client.ID ∧ d.2.RoomID = client.RoomID := by
  constructor
  · show routeMessage client st (stamp client m1) =
        routeMessage client st (stamp client m2)
    rw [h]
  · intro d hd
    have hp : d.2 = stamp client m1 := routeMessage_payload hd
    rw [hp]
    exact ⟨rfl, rfl⟩

/-- Witness for C3 at a concrete state: two spoofed variants of the same
chat message route identically and are delivered stamped with the true
origin. -/
theorem C3_origin_stamping_witness :
    stamp clientA msgChatSpoof = stamp clientA msgChatSpoof2 ∧
    (processFrame clientA reg1 (Frame.text msgChatSpoof) =
        processFrame clientA reg1 (Frame.text msgChatSpoof2) ∧
      ∀ d ∈ (processFrame clientA reg1 (Frame.text msgChatSpoof)).2,
        d.2.From = clientA.ID ∧ d.2.RoomID = clientA.RoomID) :=
  ⟨rfl, C3_origin_stamping reg1 clientA msgChatSpoof msgChatSpoof2 rfl⟩

/-- Claim C7: a WebSocket upgrade request with a missing (empty) `roomId`,
`clientId` or `username` is rejected with HTTP 400 before any upgrade is
attempted: the registry is returned unchanged, no room is created or
looked up, no connection is created, and nothing is sent. -/
theorem C7_upgrade_validation (st : Registry) (roomID clientID username : String)
    (conn : Nat) (upgradeOk : Bool)
    (h : roomID = "" ∨ clientID = "" ∨ username = "") :
    handleWebSocket st roomID clientID username conn upgradeOk =
      (st, UpgradeResult.badRequest, []) := by
  unfold handleWebSocket
  rw [if_pos h]

/-- Witness for C7: an upgrade request with an empty `clientId` against a
non-empty registry is rejected without touching it. -/
theorem C7_upgrade_validation_witness :
    (("R" : String) = "" ∨ ("" : String) = "" ∨ ("alice" : String) = "") ∧
    handleWebSocket reg1 "R" "" "alice" 7 true =
      (reg1, UpgradeResult.badRequest, []) :=
  ⟨Or.inr (Or.inl rfl),
    C7_upgrade_validation reg1 "R" "" "alice" 7 true (Or.inr (Or.inl rfl))⟩

/-- Claim C8: a non-text frame, or a text frame whose payload fails JSON
decoding, is skipped: the registry is unchanged, nothing is delivered, and
the read loop continues with the remaining frames exactly as if the frame
had never arrived — only the end of the frame stream (a transport-level
read error) ends the loop. -/
theorem C8_bad_frames_skipped (client : Client) (st : Registry) (f : Frame)
    (rest : List Frame) (h : f = Frame.nonText ∨ f = Frame.badJSON) :
    processFrame client st f = (st, []) ∧
    handleMessagesLoop client st (f :: rest) = handleMessagesLoop client st rest := by
  constructor
  · rcases h with rfl | rfl <;> rfl
  · rcases h with rfl | rfl <;> simp [handleMessagesLoop, processFrame]

/-- Witness for C8: a non-text frame ahead of an empty frame stream is
skipped and changes nothing. -/
theorem C8_bad_frames_skipped_witness :
    (Frame.nonText = Frame.nonText ∨ Frame.nonText = Frame.badJSON) ∧
    (processFrame clientA reg1 Frame.nonText = (reg1, []) ∧
      handleMessagesLoop clientA reg1 (Frame.nonText :: []) =
        handleMessagesLoop clientA reg1 []) :=
  ⟨Or.inl rfl, C8_bad_frames_skipped clientA reg1 Frame.nonText [] (Or.inl rfl)⟩

/-- Claim C4: a `chat` message from client A is broadcast to exactly the
current members of A's room other than A: the registry is unchanged, every
member whose id differs from A's receives the re-encoded (origin-stamped)
message, every recipient is a member of the room, and no recipient carries
A's id — A itself never receives it. -/
theorem C4_chat_broadcast (st : Registry) (A : Client) (room : Room)
    (m : Message) (hroom : mapLookup st A.RoomID = some room)
    (htype : m.type = "chat") :
    (processFrame A st (Frame.text m)).1 = st ∧
    (∀ p ∈ room.Clients, p.2.ID ≠ A.ID →
      (p.2, stamp A m) ∈ (processFrame A st (Frame.text m)).2) ∧
    (∀ d ∈ (processFrame A st (Frame.text m)).2,
      d.1.ID ≠ A.ID ∧ ∃ p ∈ room.Clients, p.2 = d.1) := by
  have hroute : processFrame A st (Frame.text m) =
      (st, broadcastToRoom st A.RoomID (stamp A m)) := by
    show routeMessage A st (stamp A m) = _
    unfold routeMessage
    rw [stamp_type, htype]
    rw [if_neg (by decide :
      ¬(("chat" : String) = "offer" ∨ ("chat" : String) = "answer" ∨
        ("chat" : String) = "ice-candidate"))]
    rw [if_pos (rfl : ("chat" : String) = "chat")]
  refine ⟨by rw [hroute], ?_, ?_⟩
  · intro p hp hne
    rw [hroute]
    exact broadcast_covers hroom hp (by rw [stamp_From]; exact hne)
  · intro d hd
    rw [hroute] at hd
    obtain ⟨-, hne, room', hroom', p, hp, hpd⟩ := broadcast_mem hd
    rw [hroom] at hroom'
    injection hroom' with hr
    subst hr
    exact ⟨by rw [stamp_From] at hne; exact hne, p, hp, hpd⟩

/-- Witness for C4: A's chat in the two-member room `"R"` reaches B (and
only B), never A. -/
theorem C4_chat_broadcast_witness :
    mapLookup reg1 clientA.RoomID = some roomR ∧ msgChatSpoof.type = "chat" ∧
    ((processFrame clientA reg1 (Frame.text msgChatSpoof)).1 = reg1 ∧
      (∀ p ∈ roomR.Clients, p.2.ID ≠ clientA.ID →
        (p.2, stamp clientA msgChatSpoof) ∈
          (processFrame clientA reg1 (Frame.text msgChatSpoof)).2) ∧
      (∀ d ∈ (processFrame clientA reg1 (Frame.text msgChatSpoof)).2,
        d.1.ID ≠ clientA.ID ∧ ∃ p ∈ roomR.Clients, p.2 = d.1)) :=
  ⟨rfl, rfl, C4_chat_broadcast reg1 clientA roomR msgChatSpoof rfl rfl⟩

/-- Claim C5: an `offer`/`answer`/`ice-candidate` never changes the
registry; with a non-empty `to` that is a current member B of the sender's
room it is delivered to B and no one else; with an empty `to` or a `to`
that is not a member, nothing is delivered to anyone (and no error is
sent — there is no error channel in the model: the delivery list is the
complete set of writes). -/
theorem C5_signaling_unicast (st : Registry) (A : Client) (room : Room)
    (m : Message)
    (htype : m.type = "offer" ∨ m.type = "answer" ∨ m.type = "ice-candidate")
    (hroom : mapLookup st A.RoomID = some room) :
    (processFrame A st (Frame.text m)).1 = st ∧
    (∀ B, m.To ≠ "" → mapLookup room.Clients m.To = some B →
      (processFrame A st (Frame.text m)).2 = [(B, stamp A m)]) ∧
    ((m.To = "" ∨ mapLookup room.Clients m.To = none) →
      (processFrame A st (Frame.text m)).2 = []) := by
  have hcond : (stamp A m).type = "offer" ∨ (stamp A m).type = "answer" ∨
      (stamp A m).type = "ice-candidate" := htype
  refine ⟨routeMessage_fst A st (stamp A m), ?_, ?_⟩
  · intro B hTo hB
    show (routeMessage A st (stamp A m)).2 = _
    unfold routeMessage
    rw [stamp_type, stamp_To, if_pos htype, if_pos hTo]
    exact forward_hit hroom hB
  · rintro (hTo | hB)
    · show (routeMessage A st (stamp A m)).2 = _
      unfold routeMessage
      rw [stamp_type, stamp_To, if_pos htype, if_neg (fun h => h hTo)]
    · show (routeMessage A st (stamp A m)).2 = _
      unfold routeMessage
      rw [stamp_type, stamp_To, if_pos htype]
      by_cases hTo : m.To ≠ ""
      · rw [if_pos hTo]
        exact forward_miss hroom hB
      · rw [if_neg hTo]

/-- Witness for C5: A's offer to B in room `"R"` is delivered to B alone,
and A's offer to the absent id `"ghost"` is dropped. -/
theorem C5_signaling_unicast_witness :
    (msgOfferToB.type = "offer" ∨ msgOfferToB.type = "answer" ∨
      msgOfferToB.type = "ice-candidate") ∧
    mapLookup reg1 clientA.RoomID = some roomR ∧
    ((processFrame clientA reg1 (Frame.text msgOfferToB)).1 = reg1 ∧
      (∀ B, msgOfferToB.To ≠ "" → mapLookup roomR.Clients msgOfferToB.To = some B →
        (processFrame clientA reg1 (Frame.text msgOfferToB)).2 =
          [(B, stamp clientA msgOfferToB)]) ∧
      ((msgOfferToB.To = "" ∨ mapLookup roomR.Clients msgOfferToB.To = none) →
        (processFrame clientA reg1 (Frame.text msgOfferToB)).2 = [])) :=
  ⟨Or.inl rfl, rfl,
    C5_signaling_unicast reg1 clientA roomR msgOfferToB (Or.inl rfl) rfl⟩

/-- Claim C10 (implicit): unicast does not exclude the sender — an
`offer`/`answer`/`ice-candidate` whose `to` equals the sender's own id is
delivered back to the sender itself, while a broadcast of the same
stamped message never reaches a client carrying the sender's id. -/
theorem C10_unicast_includes_sender (st : Registry) (A : Client) (room : Room)
    (m : Message)
    (htype : m.type = "offer" ∨ m.type = "answer" ∨ m.type = "ice-candidate")
    (hroom : mapLookup st A.RoomID = some room)
    (hmem : mapLookup room.Clients A.ID = some A)
    (hto : m.To = A.ID) (hid : A.ID ≠ "") :
    (processFrame A st (Frame.text m)).2 = [(A, stamp A m)] ∧
    ∀ d ∈ broadcastToRoom st A.RoomID (stamp A m), d.1.ID ≠ A.ID := by
  constructor
  · show (routeMessage A st (stamp A m)).2 = _
    unfold routeMessage
    rw [stamp_type, stamp_To, if_pos htype,
      if_pos (show m.To ≠ "" by rw [hto]; exact hid)]
    exact forward_hit hroom (by rw [stamp_To, hto]; exact hmem)
  · intro d hd
    exact (broadcast_mem hd).2.1

/-- Witness for C10: A's offer addressed to A's own id comes straight back
to A. -/
theorem C10_unicast_includes_sender_witness :
    (msgOfferToA.type = "offer" ∨ msgOfferToA.type = "answer" ∨
      msgOfferToA.type = "ice-candidate") ∧
    mapLookup reg1 clientA.RoomID = some roomR ∧
    mapLookup roomR.Clients clientA.ID = some clientA ∧
    msgOfferToA.To = clientA.ID ∧ clientA.ID ≠ "" ∧
    ((processFrame clientA reg1 (Frame.text msgOfferToA)).2 =
        [(clientA, stamp clientA msgOfferToA)] ∧
      ∀ d ∈ broadcastToRoom reg1 clientA.RoomID (stamp clientA msgOfferToA),
        d.1.ID ≠ clientA.ID) :=
  ⟨Or.inl rfl, rfl, rfl, rfl, by decide,
    C10_unicast_includes_sender reg1 clientA roomR msgOfferToA (Or.inl rfl)
      rfl rfl rfl (by decide)⟩

/-- Claim C9: a join under a `clientId` already present in the room
silently replaces the prior entry: afterwards the mapping holds the new
connection under that key, every other key is unchanged, and none of the
writes performed by the join goes to the evicted connection. -/
theorem C9_collision_overwrites (st : Registry) (rid cid uname : String)
    (n : Nat) (room : Room) (old : Client)
    (h1 : rid ≠ "") (h2 : cid ≠ "") (h3 : uname ≠ "")
    (hroom : mapLookup st rid = some room)
    (hold : mapLookup room.Clients cid = some old)
    (hkeys : ∀ p ∈ room.Clients, p.2.ID = p.1) :
    mapLookup (handleWebSocket st rid cid uname n true).1 rid =
      some ⟨mapInsert room.Clients cid ⟨n, cid, rid, uname⟩⟩ ∧
    mapLookup (mapInsert room.Clients cid ⟨n, cid, rid, uname⟩) cid =
      some ⟨n, cid, rid, uname⟩ ∧
    (∀ k, k ≠ cid →
      mapLookup (mapInsert room.Clients cid ⟨n, cid, rid, uname⟩) k =
        mapLookup room.Clients k) ∧
    ∀ d ∈ (handleWebSocket st rid cid uname n true).2.2, d.1 ≠ old := by
  have hvalid : ¬(rid = "" ∨ cid = "" ∨ uname = "") :=
    not_or.mpr ⟨h1, not_or.mpr ⟨h2, h3⟩⟩
  have hres : handleWebSocket st rid cid uname n true =
      (mapInsert st rid ⟨mapInsert room.Clients cid ⟨n, cid, rid, uname⟩⟩,
        UpgradeResult.ok ⟨n, cid, rid, uname⟩,
        notifyRoom
          (mapInsert st rid ⟨mapInsert room.Clients cid ⟨n, cid, rid, uname⟩⟩)
          rid cid "join" uname) := by
    unfold handleWebSocket
    rw [if_neg hvalid, hroom]
    rfl
  refine ⟨?_, mapLookup_insert_self _ _ _, fun k hk =>
    mapLookup_insert_ne _ _ _ _ hk, ?_⟩
  · rw [hres]
    exact mapLookup_insert_self _ _ _
  · intro d hd
    rw [hres] at hd
    obtain ⟨-, hne, -⟩ := broadcast_mem hd
    have hOldID : old.ID = cid := hkeys (cid, old) (mapLookup_mem hold)
    intro he
    exact hne (by rw [he, hOldID])

/-- Witness for C9: rejoining room `"R"` under the already-taken id `"A"`
replaces A's entry with the new connection (tag 5), leaves B's entry
alone, and sends nothing to the evicted connection. -/
theorem C9_collision_overwrites_witness :
    ("R" : String) ≠ "" ∧ ("A" : String) ≠ "" ∧ ("amy" : String) ≠ "" ∧
    mapLookup reg1 "R" = some roomR ∧
    mapLookup roomR.Clients "A" = some clientA ∧
    (∀ p ∈ roomR.Clients, p.2.ID = p.1) ∧
    (mapLookup (handleWebSocket reg1 "R" "A" "amy" 5 true).1 "R" =
        some ⟨mapInsert roomR.Clients "A" ⟨5, "A", "R", "amy"⟩⟩ ∧
      mapLookup (mapInsert roomR.Clients "A" ⟨5, "A", "R", "amy"⟩) "A" =
        some ⟨5, "A", "R", "amy"⟩ ∧
      (∀ k, k ≠ "A" →
        mapLookup (mapInsert roomR.Clients "A" ⟨5, "A", "R", "amy"⟩) k =
          mapLookup roomR.Clients k) ∧
      ∀ d ∈ (handleWebSocket reg1 "R" "A" "amy" 5 true).2.2, d.1 ≠ clientA) :=
  ⟨by decide, by decide, by decide, rfl, rfl, by decide,
    C9_collision_overwrites reg1 "R" "A" "amy" 5 roomR clientA (by decide)
      (by decide) (by decide) rfl rfl (by decide)⟩

/-- Claim C6: on the connection-termination path the client is first
removed from its room's mapping and only then is the `leave` notification
computed, so no write of the teardown ever targets a client carrying the
disconnecting id; and exactly one branch runs: when the mapping became
empty the room is deleted from the registry and nothing is sent, otherwise
the room stays (holding exactly the remaining members) and a `leave` is
broadcast to every remaining member and to nobody else. -/
theorem C6_teardown_branches (st : Registry) (client : Client) (room : Room)
    (hroom : mapLookup st client.RoomID = some room)
    (hkeys : ∀ p ∈ room.Clients, p.2.ID = p.1) :
    (∀ d ∈ (teardown client st).2, d.1.ID ≠ client.ID) ∧
    (mapErase room.Clients client.ID = [] →
      mapLookup (teardown client st).1 client.RoomID = none ∧
      (teardown client st).2 = []) ∧
    (mapErase room.Clients client.ID ≠ [] →
      mapLookup (teardown client st).1 client.RoomID =
        some ⟨mapErase room.Clients client.ID⟩ ∧
      (∀ p ∈ mapErase room.Clients client.ID,
        (p.2, ⟨"leave", client.ID, "", client.RoomID, client.Username, "", ""⟩) ∈
          (teardown client st).2) ∧
      (∀ d ∈ (teardown client st).2,
        ∃ p ∈ mapErase room.Clients client.ID, p.2 = d.1) ∧
      (teardown client st).2 ≠ []) := by
  by_cases hrem : (mapErase room.Clients client.ID).isEmpty
  · have hnil : mapErase room.Clients client.ID = [] := List.isEmpty_iff.mp hrem
    have ht : teardown client st = (mapErase st client.RoomID, []) := by
      unfold teardown
      rw [hroom]
      simp [hrem]
    refine ⟨?_, fun _ => ⟨?_, by rw [ht]⟩, fun hne => absurd hnil hne⟩
    · intro d hd
      rw [ht] at hd
      simp at hd
    · rw [ht]
      exact mapLookup_erase_self st client.RoomID
  · have hne : mapErase room.Clients client.ID ≠ [] := by
      intro hcontra
      rw [hcontra] at hrem
      exact hrem rfl
    have ht : teardown client st =
        (mapInsert st client.RoomID ⟨mapErase room.Clients client.ID⟩,
          notifyRoom
            (mapInsert st client.RoomID ⟨mapErase room.Clients client.ID⟩)
            client.RoomID client.ID "leave" client.Username) := by
      unfold teardown
      rw [hroom]
      simp [hrem]
    have hlook : mapLookup
        (mapInsert st client.RoomID ⟨mapErase room.Clients client.ID⟩)
        client.RoomID = some ⟨mapErase room.Clients client.ID⟩ :=
      mapLookup_insert_self _ _ _
    refine ⟨?_, fun hcontra => absurd hcontra hne, fun _ => ⟨?_, ?_, ?_, ?_⟩⟩
    · intro d hd
      rw [ht] at hd
      exact (broadcast_mem hd).2.1
    · rw [ht]
      exact hlook
    · intro p hp
      rw [ht]
      have hpid : p.2.ID ≠ client.ID := by
        obtain ⟨hmem, hkne⟩ := mem_mapErase hp
        rw [hkeys p hmem]
        exact hkne
      exact broadcast_covers hlook hp hpid
    · intro d hd
      rw [ht] at hd
      obtain ⟨-, -, room', hroom', p, hp, hpd⟩ := broadcast_mem hd
      rw [hlook] at hroom'
      injection hroom' with hr
      subst hr
      exact ⟨p, hp, hpd⟩
    · obtain ⟨p, hp⟩ :=
        List.exists_mem_of_ne_nil (mapErase room.Clients client.ID) hne
      have hpid : p.2.ID ≠ client.ID := by
        obtain ⟨hmem, hkne⟩ := mem_mapErase hp
        rw [hkeys p hmem]
        exact hkne
      rw [ht]
      exact List.ne_nil_of_mem (broadcast_covers hlook hp hpid)

/-- Witness for C6: A disconnecting from the two-member room `"R"` leaves
the room holding B alone and sends the `leave` event to B only. -/
theorem C6_teardown_branches_witness :
    mapLookup reg1 clientA.RoomID = some roomR ∧
    (∀ p ∈ roomR.Clients, p.2.ID = p.1) ∧
    ((∀ d ∈ (teardown clientA reg1).2, d.1.ID ≠ clientA.ID) ∧
      (mapErase roomR.Clients clientA.ID = [] →
        mapLookup (teardown clientA reg1).1 clientA.RoomID = none ∧
        (teardown clientA reg1).2 = []) ∧
      (mapErase roomR.Clients clientA.ID ≠ [] →
        mapLookup (teardown clientA reg1).1 clientA.RoomID =
          some ⟨mapErase roomR.Clients clientA.ID⟩ ∧
        (∀ p ∈ mapErase roomR.Clients clientA.ID,
          (p.2, ⟨"leave", clientA.ID, "", clientA.RoomID, clientA.Username,
            "", ""⟩) ∈ (teardown clientA reg1).2) ∧
        (∀ d ∈ (teardown clientA reg1).2,
          ∃ p ∈ mapErase roomR.Clients clientA.ID, p.2 = d.1) ∧
        (teardown clientA reg1).2 ≠ [])) :=
  ⟨rfl, by decide, C6_teardown_branches reg1 clientA roomR rfl (by decide)⟩

/-! ### The no-empty-rooms invariant (claim C1) -/

theorem noEmptyRooms_insert {st : Registry} {k : String} {room : Room}
    (hst : NoEmptyRooms st) (hroom : room.Clients ≠ []) :
    NoEmptyRooms (mapInsert st k room) := by
  intro rid r hr
  by_cases hk : rid = k
  · subst hk
    rw [mapLookup_insert_self] at hr
    injection hr with h
    subst h
    exact hroom
  · rw [mapLookup_insert_ne _ _ _ _ hk] at hr
    exact hst rid r hr

theorem noEmptyRooms_erase {st : Registry} {k : String}
    (hst : NoEmptyRooms st) : NoEmptyRooms (mapErase st k) := by
  intro rid r hr
  by_cases hk : rid = k
  · subst hk
    rw [mapLookup_erase_self] at hr
    simp at hr
  · rw [mapLookup_erase_ne _ _ _ hk] at hr
    exact hst rid r hr

theorem noEmptyRooms_join {st : Registry} (r c u : String) (n : Nat)
    (hst : NoEmptyRooms st) :
    NoEmptyRooms ((handleWebSocket st r c u n true).1) := by
  by_cases hvalid : r = "" ∨ c = "" ∨ u = ""
  · have : (handleWebSocket st r c u n true).1 = st := by
      unfold handleWebSocket
      rw [if_pos hvalid]
    rw [this]
    exact hst
  · cases hlook : mapLookup st r with
    | some room =>
        have : (handleWebSocket st r c u n true).1 =
            mapInsert st r ⟨mapInsert room.Clients c ⟨n, c, r, u⟩⟩ := by
          unfold handleWebSocket
          rw [if_neg hvalid, hlook]
          rfl
        rw [this]
        exact noEmptyRooms_insert hst (mapInsert_ne_nil _ _ _)
    | none =>
        have : (handleWebSocket st r c u n true).1 =
            mapInsert (mapInsert st r ⟨[]⟩) r
              ⟨mapInsert ([] : List (String × Client)) c ⟨n, c, r, u⟩⟩ := by
          unfold handleWebSocket
          rw [if_neg hvalid, hlook]
          rfl
        rw [this]
        intro rid rm hr
        by_cases hk : rid = r
        · subst hk
          rw [mapLookup_insert_self] at hr
          injection hr with h
          subst h
          exact mapInsert_ne_nil _ _ _
        · rw [mapLookup_insert_ne _ _ _ _ hk,
            mapLookup_insert_ne _ _ _ _ hk] at hr
          exact hst rid rm hr

theorem noEmptyRooms_leave {st : Registry} (client : Client)
    (hst : NoEmptyRooms st) : NoEmptyRooms ((teardown client st).1) := by
  cases hlook : mapLookup st client.RoomID with
  | none =>
      have : (teardown client st).1 = st := by
        unfold teardown
        rw [hlook]
      rw [this]
      exact hst
  | some room =>
      by_cases hrem : (mapErase room.Clients client.ID).isEmpty
      · have : (teardown client st).1 = mapErase st client.RoomID := by
          unfold teardown
          rw [hlook]
          simp [hrem]
        rw [this]
        exact noEmptyRooms_erase hst
      · have : (teardown client st).1 =
            mapInsert st client.RoomID ⟨mapErase room.Clients client.ID⟩ := by
          unfold teardown
          rw [hlook]
          simp [hrem]
        rw [this]
        refine noEmptyRooms_insert hst ?_
        show mapErase room.Clients client.ID ≠ []
        intro hcontra
        rw [hcontra] at hrem
        exact hrem rfl

theorem noEmptyRooms_run (ops : List Op)
    (h : ∀ op ∈ ops, goodOp op = true) :
    ∀ st, NoEmptyRooms st → NoEmptyRooms (ops.foldl stepOp st) := by
  induction ops with
  | nil => exact fun st hst => hst
  | cons op rest ih =>
      intro st hst
      have hop : goodOp op = true := h op (List.mem_cons_self _ _)
      have hrest : ∀ o ∈ rest, goodOp o = true :=
        fun o ho => h o (List.mem_cons_of_mem _ ho)
      rw [List.foldl_cons]
      apply ih hrest
      cases op with
      | create => simp [goodOp] at hop
      | join r c u n ok =>
          have hok : ok = true := hop
          subst hok
          exact noEmptyRooms_join r c u n hst
      | leave cl => exact noEmptyRooms_leave cl hst

/-- Claim C1 counterexample: the claim fails at two concrete operation
sequences.  After `[create]`, a single explicit room-creation installs a
room that exists in the registry while its member count is zero; and
after `[join "R2" "A" "alice" 0 false]`, a join to an unknown room id
whose upgrade handshake then fails leaves the lazily-created room `"R2"`
installed in the registry with zero members (the handler installs the
room before attempting the upgrade and does not remove it on failure). -/
theorem C1_counterexample :
    (roomExists (run [Op.create]) "room-abcdefgh" = true ∧
      memberCount (run [Op.create]) "room-abcdefgh" = 0) ∧
    (roomExists (run [Op.join "R2" "A" "alice" 0 false]) "R2" = true ∧
      memberCount (run [Op.join "R2" "A" "alice" 0 false]) "R2" = 0) := by
  decide

/-- Claim C1 (amended): over every sequence of operations excluding the
two violations exhibited in the counterexample — explicit room creation,
and joins whose upgrade handshake fails — a room exists in the registry
iff its member count is positive; in particular the teardown path after
the last member leaves deletes the room synchronously. -/
theorem C1_registry_invariant_amended (ops : List Op)
    (h : ∀ op ∈ ops, goodOp op = true) (rid : String) :
    roomExists (run ops) rid = true ↔ 0 < memberCount (run ops) rid := by
  have hinv : NoEmptyRooms (run ops) :=
    noEmptyRooms_run ops h [] (fun rid room hr => by simp [mapLookup] at hr)
  unfold roomExists memberCount
  cases hlook : mapLookup (run ops) rid with
  | none => simp
  | some room =>
      simp only [Option.isSome_some, true_iff]
      exact List.length_pos.mpr (hinv rid room hlook)

/-- Witness for the amended C1: after one successful join, room `"R"`
exists and its member count is positive. -/
theorem C1_registry_invariant_amended_witness :
    (∀ op ∈ [Op.join "R" "A" "alice" 0 true], goodOp op = true) ∧
    (roomExists (run [Op.join "R" "A" "alice" 0 true]) "R" = true ↔
      0 < memberCount (run [Op.join "R" "A" "alice" 0 true]) "R") :=
  ⟨by decide,
    C1_registry_invariant_amended [Op.join "R" "A" "alice" 0 true]
      (by decide) "R"⟩

end Signaling
